import Mathlib

/-!
Shallow embedding of `mw.py`, a medium-wave-style audio player.

The embedding covers the four core components:
* `build_filter_complex_for_music_plus_effects` — the ffmpeg filter-graph
  string, reproduced verbatim from the source, together with a parser for
  the `filter_complex` mini-language (stages separated by `;`, each stage
  being leading `[pin]` input labels, a comma-separated filter body, and
  trailing `[pin]` output labels).
* `mix_to_temp_wav` — the render step, modelled as state passing over an
  abstract filesystem `FS` of temporary directories, with the three
  possible outcomes of the external `subprocess.run` call.
* `play_wav_with_ffplay` — the interactive playback polling loop, modelled
  as a fold over the finite list of observations the loop makes
  (a pending key, no key, a KeyboardInterrupt; list exhausted = the
  playback process exited on its own).
* `main` — the playlist driver (`main_run`), including the file listing,
  filtering, sorting, the per-track render/play/cleanup cycle and the
  global `STOP_ALL` quit flag.

All definitions are executable and kernel-reducible, so concrete runs can
be settled by `decide`.
-/

namespace MW

/-! ## Char-list string primitives

`mw.py` relies on Python string operations (`str.lower`, `str.endswith`,
string sorting, and for the graph a `;`/`,`/`[`/`]` structure).  Core
`String` functions do not reduce in the kernel, so these primitives are
defined over `String.data : List Char`. -/

/-- Split a character list at every occurrence of `sep` (the separator is
dropped), like Python `str.split(sep)`. -/
def splitOnChar (sep : Char) : List Char → List (List Char)
  | [] => [[]]
  | c :: cs =>
    match splitOnChar sep cs with
    | [] => if c = sep then [[], []] else [[c]]
    | r :: rs => if c = sep then [] :: r :: rs else (c :: r) :: rs

/-- Python `str.lower()` (ASCII case folding, which is all the source needs:
the supported extensions are ASCII). -/
def strLower (s : String) : List Char := s.data.map Char.toLower

/-- Python `str.endswith(suffix)` on char lists. -/
def endsWithChars (s suffix : List Char) : Bool := suffix.isSuffixOf s

/-- Python code-point-wise lexicographic string comparison (`a <= b`),
the order used by `list.sort()` on `str`. -/
def pyLeChars : List Char → List Char → Bool
  | [], _ => true
  | _ :: _, [] => false
  | a :: as, b :: bs =>
    if a.toNat < b.toNat then true
    else if b.toNat < a.toNat then false
    else pyLeChars as bs

/-- The ordering Python `list.sort()` uses on the file names. -/
def pyStrLe (a b : String) : Prop := pyLeChars a.data b.data = true

instance : DecidableRel pyStrLe := fun a b =>
  inferInstanceAs (Decidable (pyLeChars a.data b.data = true))

/-! ## The filter graph builder -/

/-- The fixed supported audio extensions of `mw.py` (`SUPPORTED_EXTENSIONS`). -/
def SUPPORTED_EXTENSIONS : List String :=
  [".mp3", ".wav", ".flac", ".ogg", ".m4a", ".aac", ".wma", ".opus"]

/-- `build_filter_complex_for_music_plus_effects` from `mw.py`: the exact
ffmpeg `filter_complex` string, reproduced with the same concatenation
structure as the source. -/
def build_filter_complex_for_music_plus_effects : String :=
  let main_chain :=
    "[0:a]" ++
    "aformat=channel_layouts=mono," ++
    "highpass=f=220," ++
    "lowpass=f=4500," ++
    "equalizer=f=350:t=q:w=1:g=3," ++
    "equalizer=f=1000:t=q:w=1:g=1.5," ++
    "equalizer=f=2600:t=q:w=2:g=-2," ++
    "acrusher=bits=9:mode=log:aa=1," ++
    "volume=0dB" ++
    "[a0];"
  let whistle :=
    "sine=frequency=1800:sample_rate=44100[wsrc];" ++
    "[wsrc]" ++
    "tremolo=f=0.1:d=1," ++
    "vibrato=f=0.4:d=0.05," ++
    "aformat=channel_layouts=mono," ++
    "volume=0.05" ++
    "[w1];"
  let crackle :=
    "anoisesrc=color=white:amplitude=1.0:sample_rate=44100[nk];" ++
    "[nk]" ++
    "highpass=f=6000," ++
    "lowpass=f=12000," ++
    "acrusher=bits=2:mode=log:aa=0.0," ++
    "tremolo=f=40.0:d=1," ++
    "aformat=channel_layouts=mono," ++
    "volume=0.12" ++
    "[k1];"
  let effects_mix := "[w1][k1]amix=inputs=2:normalize=0[w];"
  let mix_chain := "[a0][w]amix=inputs=2:duration=first:normalize=0[out]"
  main_chain ++ whistle ++ crackle ++ effects_mix ++ mix_chain

/-- One stage of an ffmpeg `filter_complex` graph: input pins, the
comma-separated filter descriptions, and output pins. -/
structure Stage where
  inputs : List String
  filters : List String
  outputs : List String
deriving DecidableEq, Repr

/-- Parse one `;`-separated chain: leading `[pin]` groups are the stage
inputs, trailing `[pin]` groups the outputs, and the text in between,
split on `,`, the filter list. -/
def parseStage (chain : List Char) : Stage :=
  let pieces := splitOnChar ']' chain
  let pairs := pieces.dropLast.map fun p =>
    match splitOnChar '[' p with
    | [pre, lbl] => (pre, lbl)
    | _ => (([] : List Char), ([] : List Char))
  let ins := (pairs.takeWhile fun pr => pr.1.isEmpty).map fun pr => String.mk pr.2
  let rest := pairs.dropWhile fun pr => pr.1.isEmpty
  let body := (rest.map fun pr => pr.1).flatten
  let outs := rest.map fun pr => String.mk pr.2
  ⟨ins, (splitOnChar ',' body).map String.mk, outs⟩

/-- Parse a whole `filter_complex` string into its list of stages. -/
def parseFilterComplex (s : String) : List Stage :=
  (splitOnChar ';' s.data).map parseStage

/-- The filter graph of `mw.py`, as parsed from the builder output. -/
def mwStages : List Stage :=
  parseFilterComplex build_filter_complex_for_music_plus_effects

/-- Every stage only consumes pins already available: pins produced by an
earlier stage, or a pin from `avail` (initially the declared primary
input `0:a`). -/
def inputsCovered (avail : List String) : List Stage → Bool
  | [] => true
  | st :: rest =>
    st.inputs.all (fun p => avail.contains p) &&
      inputsCovered (avail ++ st.outputs) rest

/-- All pins produced by the graph. -/
def producedPins (stages : List Stage) : List String :=
  (stages.map Stage.outputs).flatten

/-- All pins consumed by the graph. -/
def consumedPins (stages : List Stage) : List String :=
  (stages.map Stage.inputs).flatten

/-- The declared output pins: produced but never consumed. -/
def declaredOutputs (stages : List Stage) : List String :=
  (producedPins stages).filter (fun p => !(consumedPins stages).contains p)

/-- Stage `a` feeds stage `b` (an edge of the data-flow graph). -/
def feedsInto (a b : Stage) : Bool :=
  a.outputs.any (fun p => b.inputs.contains p)

/-- The list order of the stages is a topological order of the data-flow
graph: no stage feeds itself or an earlier stage.  A graph admitting a
topological order is acyclic. -/
def topologicallyOrdered : List Stage → Bool
  | [] => true
  | st :: rest =>
    !(feedsInto st st) && rest.all (fun later => !(feedsInto later st)) &&
      topologicallyOrdered rest

/-! ## The abstract filesystem and the render step

`tempfile.mkdtemp` allocates a fresh, uniquely named temporary directory;
we model directories by natural numbers drawn from a counter, and the set
of currently existing temporary directories by a list. -/

/-- The temp-directory state: `dirs` are the directories that currently
exist, `nextId` the next fresh name `mkdtemp` will hand out. -/
structure FS where
  dirs : List Nat
  nextId : Nat
deriving DecidableEq, Repr

/-- `tempfile.mkdtemp`: creates and returns a fresh directory. -/
def mkdtemp (s : FS) : FS × Nat :=
  (⟨s.nextId :: s.dirs, s.nextId + 1⟩, s.nextId)

/-- `shutil.rmtree` guarded by `os.path.isdir`: the directory no longer
exists afterwards. -/
def rmtree (d : Nat) (s : FS) : FS :=
  ⟨s.dirs.filter (fun x => x ≠ d), s.nextId⟩

/-- Every existing directory was allocated by the counter. -/
def FS.fresh (s : FS) : Prop := ∀ d ∈ s.dirs, d < s.nextId

/-- The three ways the external `subprocess.run(cmd, check=True)` call in
`mix_to_temp_wav` can go: success (exit status 0), `CalledProcessError`
(non-zero exit status), or a launch failure such as `FileNotFoundError`
(the engine cannot be started). -/
inductive RenderOutcome
  | success
  | exitNonZero
  | launchFailure
deriving DecidableEq, Repr

/-- `mix_to_temp_wav` from `mw.py`: allocate a fresh temp directory, run
the external engine; on `CalledProcessError` remove the directory and
re-raise (result `none`); on a launch failure the `except` clause does not
match, so the exception propagates with no cleanup (result `none`, the
directory is left behind); on success return the directory (`some`). -/
def mix_to_temp_wav (o : RenderOutcome) (s : FS) : FS × Option Nat :=
  let m := mkdtemp s
  match o with
  | .success => (m.1, some m.2)
  | .exitNonZero => (rmtree m.2 m.1, none)
  | .launchFailure => (m.1, none)

/-! ## The playback control loop -/

/-- The value `play_wav_with_ffplay` returns: `"done"`, `"next"` or
`"quit"`. -/
inductive PlayOutcome
  | done
  | next
  | quit
deriving DecidableEq, Repr

/-- One iteration of the polling loop observes: a pending key press
(`msvcrt.kbhit()` true, `msvcrt.getch()` yields the key), no pending key,
or a `KeyboardInterrupt`.  The loop runs while the playback process is
alive, so an exhausted observation list means the process exited on its
own. -/
inductive PollObs
  | key (c : Char)
  | noKey
  | interrupt
deriving DecidableEq, Repr

/-- The interactive polling loop of `play_wav_with_ffplay` (the
`os.name == "nt"` branch with `msvcrt` available).  Given the current
global `STOP_ALL` flag and the sequence of observations, it returns
`(outcome, terminated, stopAll)`: the returned outcome, whether
`proc.terminate()` was called, and the new value of `STOP_ALL`. -/
def play_wav_with_ffplay (stop : Bool) : List PollObs → PlayOutcome × Bool × Bool
  | [] => (.done, false, stop)
  | .key c :: rest =>
    if c = 'n' ∨ c = 'N' then (.next, true, stop)
    else if c = 'q' ∨ c = 'Q' then (.quit, true, true)
    else play_wav_with_ffplay stop rest
  | .noKey :: rest => play_wav_with_ffplay stop rest
  | .interrupt :: _ => (.quit, true, true)

/-! ## The playlist driver -/

/-- A directory entry as `main` sees it: its name and whether
`os.path.isfile` holds for it. -/
structure DirEntry where
  name : String
  isFile : Bool
deriving DecidableEq, Repr

/-- The filter of `main`: regular file whose lowercased name ends in one
of the supported extensions. -/
def isSupportedFile (e : DirEntry) : Bool :=
  e.isFile && SUPPORTED_EXTENSIONS.any (fun ext => endsWithChars (strLower e.name) ext.data)

/-- The track list `main` computes: filter the directory listing, then
`files.sort()` (code-point lexicographic ascending). -/
def listTracks (entries : List DirEntry) : List String :=
  List.insertionSort pyStrLe ((entries.filter isSupportedFile).map DirEntry.name)

/-- The environment one track meets: how its render goes, and what the
playback loop observes if playback is reached. -/
structure TrackEnv where
  render : RenderOutcome
  polls : List PollObs
deriving DecidableEq, Repr

/-- Driver state: the filesystem and the global `STOP_ALL` flag. -/
structure DriverState where
  fs : FS
  stopAll : Bool
deriving DecidableEq, Repr

/-- Observable per-track events of a run. -/
inductive Event
  | renderOk (name : String) (dir : Nat)
  | renderFail (name : String)
  | play (name : String) (o : PlayOutcome)
deriving DecidableEq, Repr

/-- The per-track loop of `main`: check `STOP_ALL` and break if set;
render (`mix_to_temp_wav`) — on any exception log and `continue`; on
success play, then in the `finally` block remove the temp directory;
`break` after a `"quit"` outcome. -/
def driveTracks : List (String × TrackEnv) → DriverState → DriverState × List Event
  | [], s => (s, [])
  | (name, env) :: rest, s =>
    if s.stopAll then (s, [])
    else
      let r := mix_to_temp_wav env.render s.fs
      match r.2 with
      | none =>
        let next := driveTracks rest ⟨r.1, s.stopAll⟩
        (next.1, Event.renderFail name :: next.2)
      | some d =>
        let p := play_wav_with_ffplay s.stopAll env.polls
        let s1 : DriverState := ⟨rmtree d r.1, p.2.2⟩
        if p.1 = PlayOutcome.quit then (s1, [Event.renderOk name d, Event.play name p.1])
        else
          let next := driveTracks rest s1
          (next.1, Event.renderOk name d :: Event.play name p.1 :: next.2)

/-- How a run of `main` ends (which message is printed; every alternative
is a normal return, `main` never raises). -/
inductive RunResult
  | noFolderSelected
  | notAFolder
  | noFilesFound
  | finished
deriving DecidableEq, Repr

/-- `main` from `mw.py` after binary discovery: folder choice check
(an empty string means the dialog was cancelled), directory check, track
listing, and the per-track loop ending in the final summary message. -/
def main_run (folder : String) (dirExists : Bool) (entries : List DirEntry)
    (envOf : String → TrackEnv) (s : DriverState) :
    RunResult × DriverState × List Event :=
  if folder.data.isEmpty then (.noFolderSelected, s, [])
  else if !dirExists then (.notAFolder, s, [])
  else
    let files := listTracks entries
    if files.isEmpty then (.noFilesFound, s, [])
    else
      let r := driveTracks (files.map (fun f => (f, envOf f))) s
      (.finished, r.1, r.2)

/-! ## Helper lemmas -/

theorem pyLeChars_total : ∀ a b, pyLeChars a b = true ∨ pyLeChars b a = true
  | [], _ => Or.inl rfl
  | _ :: _, [] => Or.inr rfl
  | a :: as, b :: bs => by
    rcases Nat.lt_trichotomy a.toNat b.toNat with h | h | h
    · left; simp [pyLeChars, h]
    · rcases pyLeChars_total as bs with ih | ih
      · left; simp [pyLeChars, h, ih]
      · right; simp [pyLeChars, h, ih]
    · right; simp [pyLeChars, h]

theorem pyLeChars_trans :
    ∀ a b c, pyLeChars a b = true → pyLeChars b c = true → pyLeChars a c = true
  | [], _, _, _, _ => rfl
  | _ :: _, [], _, h1, _ => by simp [pyLeChars] at h1
  | _ :: _, _ :: _, [], _, h2 => by simp [pyLeChars] at h2
  | a :: as, b :: bs, c :: cs, h1, h2 => by
    unfold pyLeChars at h1 h2 ⊢
    rcases Nat.lt_trichotomy a.toNat b.toNat with hab | hab | hab
    · rcases Nat.lt_trichotomy b.toNat c.toNat with hbc | hbc | hbc
      · simp [show a.toNat < c.toNat by omega]
      · simp [show a.toNat < c.toNat by omega]
      · simp [show ¬ b.toNat < c.toNat by omega, hbc] at h2
    · rcases Nat.lt_trichotomy b.toNat c.toNat with hbc | hbc | hbc
      · simp [show a.toNat < c.toNat by omega]
      · simp [show ¬ a.toNat < b.toNat by omega,
          show ¬ b.toNat < a.toNat by omega] at h1
        simp [show ¬ b.toNat < c.toNat by omega,
          show ¬ c.toNat < b.toNat by omega] at h2
        simp [show ¬ a.toNat < c.toNat by omega, show ¬ c.toNat < a.toNat by omega]
        exact pyLeChars_trans as bs cs h1 h2
      · simp [show ¬ b.toNat < c.toNat by omega, hbc] at h2
    · simp [show ¬ a.toNat < b.toNat by omega, hab] at h1

instance : IsTotal String pyStrLe := ⟨fun a b => pyLeChars_total a.data b.data⟩

instance : IsTrans String pyStrLe :=
  ⟨fun a b c => pyLeChars_trans a.data b.data c.data⟩

/-- The playback loop only ever reports `"quit"` with the global stop flag
set. -/
theorem play_quit_sets_stop :
    ∀ (stop : Bool) (polls : List PollObs),
      (play_wav_with_ffplay stop polls).1 = PlayOutcome.quit →
      (play_wav_with_ffplay stop polls).2.2 = true
  | _, [] => by simp [play_wav_with_ffplay]
  | stop, .key c :: rest => by
    unfold play_wav_with_ffplay
    split
    · simp
    · split
      · simp
      · exact play_quit_sets_stop stop rest
  | stop, .noKey :: rest => play_quit_sets_stop stop rest
  | _, .interrupt :: _ => by simp [play_wav_with_ffplay]

/-- A removed directory does not exist. -/
theorem rmtree_not_mem (d : Nat) (s : FS) : d ∉ (rmtree d s).dirs := by
  intro h
  simp [rmtree, List.mem_filter] at h

/-- `rmtree` never adds directories. -/
theorem rmtree_preserves_not_mem (d e : Nat) (s : FS) (h : d ∉ s.dirs) :
    d ∉ (rmtree e s).dirs := by
  intro hm
  exact h (List.mem_of_mem_filter hm)

/-- A directory that does not exist and is older than the counter still
does not exist after a render attempt, and stays older than the counter. -/
theorem mix_preserves_not_mem (d : Nat) (o : RenderOutcome) (s : FS)
    (h1 : d ∉ s.dirs) (h2 : d < s.nextId) :
    d ∉ (mix_to_temp_wav o s).1.dirs ∧ d < (mix_to_temp_wav o s).1.nextId := by
  cases o <;>
    simp [mix_to_temp_wav, mkdtemp, rmtree, List.mem_filter, h1] <;>
    omega

/-- A directory that does not exist and is older than the counter still
does not exist after any run of the per-track loop. -/
theorem driveTracks_preserves_not_mem (d : Nat) :
    ∀ (files : List (String × TrackEnv)) (fs : FS) (stop : Bool),
      d ∉ fs.dirs → d < fs.nextId →
      d ∉ (driveTracks files ⟨fs, stop⟩).1.fs.dirs
  | [], _, _, h1, _ => h1
  | (name, env) :: rest, fs, true, h1, _ => by
    simpa [driveTracks] using h1
  | (name, env) :: rest, fs, false, h1, h2 => by
    have hmix := mix_preserves_not_mem d env.render fs h1 h2
    show d ∉ (driveTracks ((name, env) :: rest) ⟨fs, false⟩).1.fs.dirs
    unfold driveTracks
    simp only [Bool.false_eq_true, if_false]
    cases hr : (mix_to_temp_wav env.render fs).2 with
    | none =>
      exact driveTracks_preserves_not_mem d rest (mix_to_temp_wav env.render fs).1 false
        hmix.1 hmix.2
    | some dir =>
      have hrm : d ∉ (rmtree dir (mix_to_temp_wav env.render fs).1).dirs :=
        rmtree_preserves_not_mem d dir _ hmix.1
      by_cases hq : (play_wav_with_ffplay false env.polls).1 = PlayOutcome.quit
      · simp only [if_pos hq]; exact hrm
      · simp only [if_neg hq]
        exact driveTracks_preserves_not_mem d rest
          (rmtree dir (mix_to_temp_wav env.render fs).1)
          (play_wav_with_ffplay false env.polls).2.2
          hrm (by simpa [rmtree] using hmix.2)

/-! ## The claims -/

set_option maxRecDepth 20000 in
/-- C1: in the filter graph produced by
`build_filter_complex_for_music_plus_effects`, every pin consumed as an
input by a stage was produced by an earlier stage or is the declared
primary input `0:a`; the stage list is a topological order of the
data-flow graph (so the graph is acyclic); and exactly one pin, `out`, is
produced but never consumed (the single declared output pin). -/
theorem C1_graph_invariants :
    inputsCovered ["0:a"] mwStages = true ∧
    topologicallyOrdered mwStages = true ∧
    declaredOutputs mwStages = ["out"] := by
  refine ⟨?_, ?_, ?_⟩ <;> decide

set_option maxRecDepth 20000 in
/-- C7: the first stage of the parsed graph is the main content path: it
consumes the primary input `0:a`, downmixes to mono, applies the
high-pass/low-pass band-limiting pair, the three parametric equalizer
bands (boost at 350 Hz, smaller boost at 1 kHz, mild cut at 2.6 kHz), the
`acrusher` bit-depth reduction with `bits=9`, logarithmic mode and `aa=1`
(followed by a unity `volume=0dB` gain), and produces output pin `a0`. -/
theorem C7_main_content_path :
    mwStages.head? = some
      ⟨["0:a"],
       ["aformat=channel_layouts=mono",
        "highpass=f=220",
        "lowpass=f=4500",
        "equalizer=f=350:t=q:w=1:g=3",
        "equalizer=f=1000:t=q:w=1:g=1.5",
        "equalizer=f=2600:t=q:w=2:g=-2",
        "acrusher=bits=9:mode=log:aa=1",
        "volume=0dB"],
       ["a0"]⟩ := by
  decide

set_option maxRecDepth 20000 in
/-- C8: in the parsed graph, the effects-mix stage sums the whistle pin
`w1` and the crackle pin `k1` with normalization disabled into pin `w`,
and the final stage sums the main-content pin `a0` with the effects pin
`w`, duration governed by the first (main) input and normalization
disabled, into the declared output pin `out`. -/
theorem C8_mix_stages :
    mwStages[5]? = some ⟨["w1", "k1"], ["amix=inputs=2:normalize=0"], ["w"]⟩ ∧
    mwStages[6]? = some
      ⟨["a0", "w"], ["amix=inputs=2:duration=first:normalize=0"], ["out"]⟩ := by
  refine ⟨?_, ?_⟩ <;> decide

/-- C6: in the interactive playback loop, key `n`/`N` terminates the
playback process and returns `"next"` (SkipRequested) with the global
quit flag unchanged; key `q`/`Q` terminates the process, sets the quit
flag and returns `"quit"` (QuitRequested); if the playback process exits
on its own (the observation list is exhausted) the loop returns `"done"`
(Completed) without terminating anything; a `KeyboardInterrupt` during
polling terminates the process, sets the quit flag and returns
`"quit"`. -/
theorem C6_playback_controls :
    (∀ (stop : Bool) (rest : List PollObs) (c : Char), c = 'n' ∨ c = 'N' →
        play_wav_with_ffplay stop (PollObs.key c :: rest) =
          (PlayOutcome.next, true, stop)) ∧
    (∀ (stop : Bool) (rest : List PollObs) (c : Char), c = 'q' ∨ c = 'Q' →
        play_wav_with_ffplay stop (PollObs.key c :: rest) =
          (PlayOutcome.quit, true, true)) ∧
    (∀ stop : Bool, play_wav_with_ffplay stop [] = (PlayOutcome.done, false, stop)) ∧
    (∀ (stop : Bool) (rest : List PollObs),
        play_wav_with_ffplay stop (PollObs.interrupt :: rest) =
          (PlayOutcome.quit, true, true)) := by
  refine ⟨?_, ?_, fun _ => rfl, fun _ _ => rfl⟩
  · rintro stop rest c (rfl | rfl) <;> rfl
  · rintro stop rest c (rfl | rfl) <;> rfl

/-- C6 witness: concrete key presses. -/
theorem C6_playback_controls_witness :
    play_wav_with_ffplay false [PollObs.key 'n'] = (PlayOutcome.next, true, false) ∧
    play_wav_with_ffplay false [PollObs.key 'q'] = (PlayOutcome.quit, true, true) :=
  ⟨C6_playback_controls.1 false [] 'n' (Or.inl rfl),
   C6_playback_controls.2.1 false [] 'q' (Or.inl rfl)⟩

/-- C10: in the interactive playback loop, a pressed key other than
`n`, `N`, `q`, `Q` is read from the buffer and discarded: the loop
continues exactly as if the key had never been pressed (same outcome,
same termination behaviour, same quit flag). -/
theorem C10_other_keys_ignored (stop : Bool) (rest : List PollObs) (c : Char)
    (h : c ∉ (['n', 'N', 'q', 'Q'] : List Char)) :
    play_wav_with_ffplay stop (PollObs.key c :: rest) =
      play_wav_with_ffplay stop rest := by
  simp only [List.mem_cons, List.not_mem_nil, or_false, not_or] at h
  obtain ⟨h1, h2, h3, h4⟩ := h
  simp [play_wav_with_ffplay, h1, h2, h3, h4]

/-- C10 witness: the key `x` is discarded. -/
theorem C10_other_keys_ignored_witness :
    play_wav_with_ffplay false [PollObs.key 'x'] = play_wav_with_ffplay false [] :=
  C10_other_keys_ignored false [] 'x' (by decide)

/-- C5: the render step fails (returns no rendered file, i.e. the
exception propagates) exactly when the external invocation exits with a
non-zero status or cannot be started; and when a track's render fails the
driver logs a `renderFail` event for it, never plays it, and continues
with the remaining tracks, whose processing is unchanged. -/
theorem C5_render_failure_policy :
    (∀ (o : RenderOutcome) (fs : FS),
        (mix_to_temp_wav o fs).2 = none ↔ o ≠ RenderOutcome.success) ∧
    (∀ (name : String) (env : TrackEnv) (rest : List (String × TrackEnv)) (fs : FS),
        env.render ≠ RenderOutcome.success →
        driveTracks ((name, env) :: rest) ⟨fs, false⟩ =
          ((driveTracks rest ⟨(mix_to_temp_wav env.render fs).1, false⟩).1,
           Event.renderFail name ::
             (driveTracks rest ⟨(mix_to_temp_wav env.render fs).1, false⟩).2)) := by
  constructor
  · intro o fs
    cases o <;> simp [mix_to_temp_wav, mkdtemp, rmtree]
  · intro name env rest fs h
    cases henv : env.render with
    | success => exact absurd henv h
    | exitNonZero => simp [driveTracks, henv, mix_to_temp_wav, mkdtemp]
    | launchFailure => simp [driveTracks, henv, mix_to_temp_wav, mkdtemp]

/-- C5 witness: a non-zero engine exit on the only track. -/
theorem C5_render_failure_policy_witness :
    ((mix_to_temp_wav RenderOutcome.exitNonZero ⟨[], 0⟩).2 = none ↔
      RenderOutcome.exitNonZero ≠ RenderOutcome.success) ∧
    driveTracks [("a.mp3", ⟨RenderOutcome.exitNonZero, []⟩)] ⟨⟨[], 0⟩, false⟩ =
      ((driveTracks []
          ⟨(mix_to_temp_wav RenderOutcome.exitNonZero ⟨[], 0⟩).1, false⟩).1,
       Event.renderFail "a.mp3" ::
         (driveTracks []
           ⟨(mix_to_temp_wav RenderOutcome.exitNonZero ⟨[], 0⟩).1, false⟩).2) :=
  ⟨C5_render_failure_policy.1 RenderOutcome.exitNonZero ⟨[], 0⟩,
   C5_render_failure_policy.2 "a.mp3" ⟨RenderOutcome.exitNonZero, []⟩ [] ⟨[], 0⟩
     (by decide)⟩

/-- C4: once the quit flag is set, the driver processes no further track
at all (checked before each track); if during playback of a track the
loop reports `"quit"`, the run for that track list ends right after that
track's cleanup, with only that track's events emitted, the quit flag
set, and no later track rendered or played; and a run that reaches the
track loop ends with the non-error `"Done"` summary (`finished`). -/
theorem C4_quit_semantics :
    (∀ (files : List (String × TrackEnv)) (s : DriverState), s.stopAll = true →
        driveTracks files s = (s, [])) ∧
    (∀ (name : String) (env : TrackEnv) (rest : List (String × TrackEnv)) (fs : FS),
        env.render = RenderOutcome.success →
        (play_wav_with_ffplay false env.polls).1 = PlayOutcome.quit →
        driveTracks ((name, env) :: rest) ⟨fs, false⟩ =
          (⟨rmtree fs.nextId (mkdtemp fs).1, true⟩,
           [Event.renderOk name fs.nextId, Event.play name PlayOutcome.quit])) ∧
    (∀ (folder : String) (dirExists : Bool) (entries : List DirEntry)
        (envOf : String → TrackEnv) (s : DriverState),
        folder.data.isEmpty = false → dirExists = true → listTracks entries ≠ [] →
        (main_run folder dirExists entries envOf s).1 = RunResult.finished) := by
  refine ⟨?_, ?_, ?_⟩
  · intro files s h
    cases files with
    | nil => rfl
    | cons f rest => unfold driveTracks; rw [if_pos h]
  · intro name env rest fs hrender hq
    have hstop := play_quit_sets_stop false env.polls hq
    unfold driveTracks
    rw [hrender]
    simp [mix_to_temp_wav, mkdtemp, hq, hstop]
  · intro folder dirExists entries envOf s hfolder hdir hne
    unfold main_run
    simp [hfolder, hdir, List.isEmpty_iff, hne]

/-- C4 witness: a quit key during the first of two tracks. -/
theorem C4_quit_semantics_witness :
    driveTracks [("b.wav", ⟨RenderOutcome.success, []⟩)] ⟨⟨[], 0⟩, true⟩ =
      (⟨⟨[], 0⟩, true⟩, []) ∧
    driveTracks
        [("a.mp3", ⟨RenderOutcome.success, [PollObs.key 'q']⟩),
         ("b.wav", ⟨RenderOutcome.success, []⟩)] ⟨⟨[], 0⟩, false⟩ =
      (⟨rmtree (FS.mk [] 0).nextId (mkdtemp ⟨[], 0⟩).1, true⟩,
       [Event.renderOk "a.mp3" (FS.mk [] 0).nextId, Event.play "a.mp3" PlayOutcome.quit]) ∧
    (main_run "f" true [⟨"a.mp3", true⟩] (fun _ => ⟨RenderOutcome.success, []⟩)
        ⟨⟨[], 0⟩, false⟩).1 = RunResult.finished :=
  ⟨C4_quit_semantics.1 [("b.wav", ⟨RenderOutcome.success, []⟩)] ⟨⟨[], 0⟩, true⟩ rfl,
   C4_quit_semantics.2.1 "a.mp3" ⟨RenderOutcome.success, [PollObs.key 'q']⟩
     [("b.wav", ⟨RenderOutcome.success, []⟩)] ⟨[], 0⟩ rfl (by decide),
   C4_quit_semantics.2.2 "f" true [⟨"a.mp3", true⟩]
     (fun _ => ⟨RenderOutcome.success, []⟩) ⟨⟨[], 0⟩, false⟩ rfl rfl (by decide)⟩

/-- C2 counterexample: when the external engine cannot be started (e.g.
`FileNotFoundError` from `subprocess.run`), the `except
subprocess.CalledProcessError` clause does not match, so `mix_to_temp_wav`
propagates the exception without removing the temporary directory, and
`main` merely logs and continues: the directory allocated for the track
(directory `0` here) still exists after the per-track cycle completes. -/
theorem C2_counterexample :
    (driveTracks [("a.mp3", ⟨RenderOutcome.launchFailure, []⟩)]
        ⟨⟨[], 0⟩, false⟩).1.fs.dirs = [0] := by
  decide

/-- C2 as amended: after a render attempt that either succeeds or exits
with a non-zero status — but not one that fails to launch — and any
playback attempt with any outcome, the temporary directory allocated for
the track no longer exists once the run of the remaining track list
completes; moreover on a non-zero exit the directory is removed before
the failure is propagated (no rendered file is returned). -/
theorem C2_tempdir_cleanup (name : String) (env : TrackEnv)
    (rest : List (String × TrackEnv)) (fs : FS)
    (h : env.render ≠ RenderOutcome.launchFailure) :
    fs.nextId ∉ (driveTracks ((name, env) :: rest) ⟨fs, false⟩).1.fs.dirs ∧
    (mix_to_temp_wav RenderOutcome.exitNonZero fs).2 = none ∧
    fs.nextId ∉ (mix_to_temp_wav RenderOutcome.exitNonZero fs).1.dirs := by
  refine ⟨?_, rfl, rmtree_not_mem fs.nextId (mkdtemp fs).1⟩
  unfold driveTracks
  simp only [Bool.false_eq_true, if_false]
  cases henv : env.render with
  | launchFailure => exact absurd henv h
  | exitNonZero =>
    exact driveTracks_preserves_not_mem fs.nextId rest
      (mix_to_temp_wav RenderOutcome.exitNonZero fs).1 false
      (rmtree_not_mem fs.nextId (mkdtemp fs).1)
      (by simp [mix_to_temp_wav, mkdtemp, rmtree])
  | success =>
    by_cases hq : (play_wav_with_ffplay false env.polls).1 = PlayOutcome.quit
    · simp only [mix_to_temp_wav, if_pos hq]
      exact rmtree_not_mem fs.nextId (mkdtemp fs).1
    · simp only [mix_to_temp_wav, if_neg hq]
      exact driveTracks_preserves_not_mem fs.nextId rest
        (rmtree (mkdtemp fs).2 (mkdtemp fs).1)
        (play_wav_with_ffplay false env.polls).2.2
        (rmtree_not_mem fs.nextId (mkdtemp fs).1)
        (by simp [mkdtemp, rmtree])

/-- C2 witness: a non-zero engine exit; the directory is gone. -/
theorem C2_tempdir_cleanup_witness :
    (0 : Nat) ∉ (driveTracks [("a.mp3", ⟨RenderOutcome.exitNonZero, []⟩)]
        ⟨⟨[], 0⟩, false⟩).1.fs.dirs ∧
    (mix_to_temp_wav RenderOutcome.exitNonZero ⟨[], 0⟩).2 = none ∧
    (0 : Nat) ∉ (mix_to_temp_wav RenderOutcome.exitNonZero ⟨[], 0⟩).1.dirs :=
  C2_tempdir_cleanup "a.mp3" ⟨RenderOutcome.exitNonZero, []⟩ [] ⟨[], 0⟩ (by decide)

/-- C9: every render call allocates a fresh, uniquely named temporary
directory: two successive calls (same source, same graph, same output
constraints) yield distinct directories, neither of which existed before,
and after both succeed both exist independently. -/
theorem C9_render_allocates_fresh_dirs (s s1 s2 : FS) (d1 d2 : Nat)
    (hf : s.fresh)
    (h1 : mix_to_temp_wav RenderOutcome.success s = (s1, some d1))
    (h2 : mix_to_temp_wav RenderOutcome.success s1 = (s2, some d2)) :
    d1 ≠ d2 ∧ d1 ∉ s.dirs ∧ d2 ∉ s.dirs ∧ d1 ∈ s2.dirs ∧ d2 ∈ s2.dirs := by
  simp only [mix_to_temp_wav, mkdtemp, Prod.mk.injEq, Option.some.injEq] at h1 h2
  obtain ⟨hs1, hd1⟩ := h1
  obtain ⟨hs2, hd2⟩ := h2
  subst hs1; subst hs2; subst hd1; subst hd2
  refine ⟨by simp, ?_, ?_, by simp, by simp⟩
  · intro hm
    have hlt := hf _ hm
    omega
  · intro hm
    have hlt := hf _ hm
    simp only [FS.nextId] at hlt
    omega

/-- C3: the track list is sorted ascending in the Python string order; a
name is in it exactly when some listed entry is a regular file with that
name whose lowercased name ends in a supported extension; when the
filtered set is empty the driver reports `noFilesFound` and returns
normally; and the folder `a.mp3`, `b.wav`, `c.txt` yields exactly
`[a.mp3, b.wav]`. -/
theorem C3_track_listing :
    (∀ entries : List DirEntry, List.Sorted pyStrLe (listTracks entries)) ∧
    (∀ (entries : List DirEntry) (n : String),
        n ∈ listTracks entries ↔
          ∃ e ∈ entries, e.name = n ∧ e.isFile = true ∧
            (SUPPORTED_EXTENSIONS.any fun ext =>
              endsWithChars (strLower n) ext.data) = true) ∧
    (∀ (folder : String) (dirExists : Bool) (entries : List DirEntry)
        (envOf : String → TrackEnv) (s : DriverState),
        folder.data.isEmpty = false → dirExists = true → listTracks entries = [] →
        main_run folder dirExists entries envOf s = (RunResult.noFilesFound, s, [])) ∧
    listTracks [⟨"a.mp3", true⟩, ⟨"b.wav", true⟩, ⟨"c.txt", true⟩] =
      ["a.mp3", "b.wav"] := by
  refine ⟨?_, ?_, ?_, by decide⟩
  · intro entries
    exact List.sorted_insertionSort pyStrLe _
  · intro entries n
    unfold listTracks
    rw [List.mem_insertionSort, List.mem_map]
    constructor
    · rintro ⟨e, he, rfl⟩
      rw [List.mem_filter] at he
      have hsup := he.2
      unfold isSupportedFile at hsup
      rw [Bool.and_eq_true] at hsup
      exact ⟨e, he.1, rfl, hsup.1, hsup.2⟩
    · rintro ⟨e, he, hname, hfile, hext⟩
      refine ⟨e, ?_, hname⟩
      rw [List.mem_filter]
      refine ⟨he, ?_⟩
      unfold isSupportedFile
      rw [Bool.and_eq_true]
      exact ⟨hfile, by rw [hname]; exact hext⟩
  · intro folder dirExists entries envOf s hfolder hdir hempty
    unfold main_run
    simp [hfolder, hdir, hempty]

/-- C3 witness: concrete folders for the sortedness, membership and
empty-folder parts. -/
theorem C3_track_listing_witness :
    List.Sorted pyStrLe (listTracks [⟨"b.wav", true⟩, ⟨"a.mp3", true⟩]) ∧
    ("a.mp3" ∈ listTracks [⟨"a.mp3", true⟩, ⟨"c.txt", true⟩] ↔
      ∃ e ∈ [DirEntry.mk "a.mp3" true, DirEntry.mk "c.txt" true],
        e.name = "a.mp3" ∧ e.isFile = true ∧
          (SUPPORTED_EXTENSIONS.any fun ext =>
            endsWithChars (strLower "a.mp3") ext.data) = true) ∧
    main_run "f" true [⟨"c.txt", true⟩] (fun _ => ⟨RenderOutcome.success, []⟩)
        ⟨⟨[], 0⟩, false⟩ =
      (RunResult.noFilesFound, ⟨⟨[], 0⟩, false⟩, []) :=
  ⟨C3_track_listing.1 [⟨"b.wav", true⟩, ⟨"a.mp3", true⟩],
   C3_track_listing.2.1 [⟨"a.mp3", true⟩, ⟨"c.txt", true⟩] "a.mp3",
   C3_track_listing.2.2.1 "f" true [⟨"c.txt", true⟩]
     (fun _ => ⟨RenderOutcome.success, []⟩) ⟨⟨[], 0⟩, false⟩
     (by decide) rfl (by decide)⟩

/-- C9 witness: two renders from the empty filesystem allocate
directories 0 and 1. -/
theorem C9_render_allocates_fresh_dirs_witness :
    (0 : Nat) ≠ 1 ∧ (0 : Nat) ∉ (FS.mk [] 0).dirs ∧ (1 : Nat) ∉ (FS.mk [] 0).dirs ∧
    (0 : Nat) ∈ (FS.mk [1, 0] 2).dirs ∧ (1 : Nat) ∈ (FS.mk [1, 0] 2).dirs :=
  C9_render_allocates_fresh_dirs ⟨[], 0⟩ ⟨[0], 1⟩ ⟨[1, 0], 2⟩ 0 1
    (fun d hm => absurd hm (List.not_mem_nil d)) rfl rfl

end MW
